import Mathlib

/-!
Shallow embedding of the shikshavani-mvp content-generation pipeline.

Each Python function relevant to the verified properties is translated to a
Lean definition.  External effects (the generative-language API, the gTTS
service, the filesystem, moviepy, wall-clock time) are modelled as explicit
oracle parameters, so that every definition is a pure, executable function of
its inputs.  Machine text is modelled as `List Char`; real-valued quantities
(durations, elapsed seconds) as `ℚ`; Python `int(...)` truncation of
non-negative quantities as `Int.floor` followed by `Int.toNat`.
-/

/-! ## Python string primitives -/

/-- The ASCII whitespace characters removed by Python `str.strip()`. -/
def isPySpace (c : Char) : Bool :=
  c = ' ' || c = '\t' || c = '\n' || c = '\r' || c = '\x0b' || c = '\x0c'

/-- Python `str.strip()`: remove leading and trailing whitespace. -/
def pyStrip (l : List Char) : List Char :=
  ((l.dropWhile isPySpace).reverse.dropWhile isPySpace).reverse

/-- The backtick character (U+0060). -/
def btick : Char := Char.ofNat 96

/-- One left-to-right pass of Python `re.sub(pattern, "", text)` for a pattern
whose match at a position consumes `matchLen` characters (`0` = no match
there): leftmost, non-overlapping, scanning resumes after each deletion. -/
def reSubDelete (matchLen : List Char → ℕ) : List Char → List Char
  | [] => []
  | c :: rest =>
    if h : matchLen (c :: rest) = 0 then c :: reSubDelete matchLen rest
    else reSubDelete matchLen ((c :: rest).drop (matchLen (c :: rest)))
termination_by l => l.length
decreasing_by
  · simp [List.length_cons]
  · simp only [List.length_drop, List.length_cons]
    omega

/-- The three-backtick fence marker. -/
def ticks : List Char := [btick, btick, btick]

/-- The marker removed by `clean_response`'s first pattern when the optional
group matches: three backticks followed by `html`. -/
def ticksHtml : List Char := ticks ++ ['h', 't', 'm', 'l']

/-- The marker preferred by `clean_json`'s alternation: three backticks
followed by `json`. -/
def ticksJson : List Char := ticks ++ ['j', 's', 'o', 'n']

/-- Whether a string starts with three backticks. -/
def startsWithTicks (l : List Char) : Bool :=
  match l with
  | a :: b :: c :: _ => a = btick && b = btick && c = btick
  | _ => false

/-- Match length of the `d3_generator.clean_response` pattern (three backticks
with an optional greedy `html` group) at the head of `l`. -/
def fenceHtmlMatchLen (l : List Char) : ℕ :=
  if startsWithTicks l then
    (if (l.drop 3).take 4 = ['h', 't', 'm', 'l'] then 7 else 3)
  else 0

/-- Match length of the bare three-backtick pattern at the head of `l`. -/
def fenceMatchLen (l : List Char) : ℕ :=
  if startsWithTicks l then 3 else 0

/-- Match length of the `script_generation.clean_json` alternation (the
`json`-suffixed fence is tried before the bare fence) at the head of `l`. -/
def fenceJsonMatchLen (l : List Char) : ℕ :=
  if startsWithTicks l then
    (if (l.drop 3).take 4 = ['j', 's', 'o', 'n'] then 7 else 3)
  else 0

/-- `d3_generator.clean_response`: two `re.sub` passes (first the pattern with
the optional `html` group, then the bare fence), then `str.strip()`. -/
def clean_response (t : List Char) : List Char :=
  pyStrip (reSubDelete fenceMatchLen (reSubDelete fenceHtmlMatchLen t))

/-- `script_generation.clean_json`: `str.strip()` first, then a single
`re.sub` pass for the alternation of the `json` fence and the bare fence. -/
def clean_json (t : List Char) : List Char :=
  reSubDelete fenceJsonMatchLen (pyStrip t)

/-- `Removes markers t u`: `u` is obtained from `t` by deleting occurrences of
the listed markers, every other character kept in order. -/
inductive Removes (markers : List (List Char)) : List Char → List Char → Prop
  | nil : Removes markers [] []
  | keep {c : Char} {t u : List Char} :
      Removes markers t u → Removes markers (c :: t) (c :: u)
  | delete {m t u} :
      m ∈ markers → Removes markers t u → Removes markers (m ++ t) u

/-- A string obtained by deleting markers is a sublist of the original. -/
theorem Removes.sublist {markers : List (List Char)} {t u : List Char}
    (h : Removes markers t u) : u.Sublist t := by
  induction h with
  | nil => exact List.Sublist.refl _
  | keep _ ih => exact ih.cons₂ _
  | delete _ _ ih => exact ih.trans (List.sublist_append_right _ _)

/-- `reSubDelete` only deletes markers, provided every positive match length
consumes exactly one of the markers. -/
theorem removes_reSubDelete (markers : List (List Char))
    (matchLen : List Char → ℕ)
    (hmark : ∀ l, matchLen l ≠ 0 → l.take (matchLen l) ∈ markers) :
    ∀ l, Removes markers l (reSubDelete matchLen l) := by
  intro l
  induction l using reSubDelete.induct matchLen with
  | case1 =>
    simp only [reSubDelete]
    exact Removes.nil
  | case2 c rest h ih =>
    simp only [reSubDelete]
    rw [dif_pos h]
    exact Removes.keep ih
  | case3 c rest h ih =>
    simp only [reSubDelete]
    rw [dif_neg h]
    have hdec := Removes.delete (hmark _ h) ih
    rwa [List.take_append_drop] at hdec

/-- If a string starts with three backticks it has the explicit shape. -/
theorem startsWithTicks_shape {l : List Char} (h : startsWithTicks l = true) :
    ∃ rest, l = btick :: btick :: btick :: rest := by
  match l with
  | [] => simp [startsWithTicks] at h
  | [a] => simp [startsWithTicks] at h
  | [a, b] => simp [startsWithTicks] at h
  | a :: b :: c :: rest =>
    simp only [startsWithTicks, Bool.and_eq_true, decide_eq_true_eq] at h
    exact ⟨rest, by rw [h.1.1, h.1.2, h.2]⟩

/-- If `take 4` of a list is a four-element literal, the list decomposes. -/
theorem take_four_shape {l : List Char} {a b c d : Char}
    (h : l.take 4 = [a, b, c, d]) : l = a :: b :: c :: d :: l.drop 4 := by
  conv_lhs => rw [← List.take_append_drop 4 l]
  rw [h]
  rfl

/-- The positive matches of the `clean_response` first pattern are markers. -/
theorem fenceHtmlMatchLen_take (l : List Char) (h : fenceHtmlMatchLen l ≠ 0) :
    l.take (fenceHtmlMatchLen l) ∈ [ticksHtml, ticks] := by
  unfold fenceHtmlMatchLen at *
  split_ifs at * with h1 h2
  · obtain ⟨rest, hrest⟩ := startsWithTicks_shape h1
    subst hrest
    simp only [List.drop_succ_cons, List.drop_zero] at h2
    have := take_four_shape h2
    rw [this]
    simp [ticksHtml, ticks]
  · obtain ⟨rest, hrest⟩ := startsWithTicks_shape h1
    subst hrest
    simp [ticks]
  · exact absurd rfl h

/-- The positive matches of the bare-fence pattern are markers. -/
theorem fenceMatchLen_take (l : List Char) (h : fenceMatchLen l ≠ 0) :
    l.take (fenceMatchLen l) ∈ [ticks] := by
  unfold fenceMatchLen at *
  split_ifs at * with h1
  · obtain ⟨rest, hrest⟩ := startsWithTicks_shape h1
    subst hrest
    simp [ticks]
  · exact absurd rfl h

/-- The positive matches of the `clean_json` alternation are markers. -/
theorem fenceJsonMatchLen_take (l : List Char) (h : fenceJsonMatchLen l ≠ 0) :
    l.take (fenceJsonMatchLen l) ∈ [ticksJson, ticks] := by
  unfold fenceJsonMatchLen at *
  split_ifs at * with h1 h2
  · obtain ⟨rest, hrest⟩ := startsWithTicks_shape h1
    subst hrest
    simp only [List.drop_succ_cons, List.drop_zero] at h2
    have := take_four_shape h2
    rw [this]
    simp [ticksJson, ticks]
  · obtain ⟨rest, hrest⟩ := startsWithTicks_shape h1
    subst hrest
    simp [ticks]
  · exact absurd rfl h

/-- `v` differs from `r` only by leading and trailing whitespace. -/
def OnlyStripsOf (v r : List Char) : Prop :=
  ∃ a b, v = a ++ r ++ b ∧ (∀ c ∈ a, isPySpace c = true)
    ∧ (∀ c ∈ b, isPySpace c = true)

/-- `pyStrip` removes exactly some leading and trailing whitespace. -/
theorem pyStrip_onlyStrips (l : List Char) : OnlyStripsOf l (pyStrip l) := by
  have hd2 : l.dropWhile isPySpace
      = pyStrip l ++ ((l.dropWhile isPySpace).reverse.takeWhile isPySpace).reverse := by
    have h := congrArg List.reverse
      (List.takeWhile_append_dropWhile (p := isPySpace)
        (l := (l.dropWhile isPySpace).reverse))
    rw [List.reverse_append, List.reverse_reverse] at h
    exact h.symm
  refine ⟨l.takeWhile isPySpace,
    ((l.dropWhile isPySpace).reverse.takeWhile isPySpace).reverse, ?_, ?_, ?_⟩
  · conv_lhs =>
      rw [← List.takeWhile_append_dropWhile (p := isPySpace) (l := l), hd2]
    rw [List.append_assoc]
  · intro c hc
    exact List.mem_takeWhile_imp hc
  · intro c hc
    rw [List.mem_reverse] at hc
    exact List.mem_takeWhile_imp hc

/-- `pyStrip` keeps a sublist of its input. -/
theorem pyStrip_sublist (l : List Char) : (pyStrip l).Sublist l := by
  obtain ⟨a, b, hab, -, -⟩ := pyStrip_onlyStrips l
  conv_rhs => rw [hab]
  simp

/-- C2: the only transformation `clean_response` and `clean_json` apply to an
LLM response is deletion of markdown fence markers and of leading/trailing
whitespace; every other character is preserved in order, and no further
validation is performed (the functions are total and never reject input). -/
theorem clean_functions_only_remove_fences (t : List Char) :
    (∃ u v, Removes [ticksHtml, ticks] t u ∧ Removes [ticks] u v
      ∧ OnlyStripsOf v (clean_response t))
    ∧ (clean_response t).Sublist t
    ∧ (∃ u, OnlyStripsOf t u ∧ Removes [ticksJson, ticks] u (clean_json t))
    ∧ (clean_json t).Sublist t := by
  have h1 : Removes [ticksHtml, ticks] t (reSubDelete fenceHtmlMatchLen t) :=
    removes_reSubDelete _ _ fenceHtmlMatchLen_take t
  have h2 : Removes [ticks] (reSubDelete fenceHtmlMatchLen t)
      (reSubDelete fenceMatchLen (reSubDelete fenceHtmlMatchLen t)) :=
    removes_reSubDelete _ _ fenceMatchLen_take _
  have h3 : Removes [ticksJson, ticks] (pyStrip t) (clean_json t) :=
    removes_reSubDelete _ _ fenceJsonMatchLen_take _
  refine ⟨⟨_, _, h1, h2, pyStrip_onlyStrips _⟩, ?_, ⟨_, pyStrip_onlyStrips t, h3⟩, ?_⟩
  · exact ((pyStrip_sublist _).trans h2.sublist).trans h1.sublist
  · exact h3.sublist.trans (pyStrip_sublist t)

/-! ## generate_interactive_page.py -/

/-- One section of a generated script, as consumed by the page generator. -/
structure D3Section where
  text : String
  visualization_type : String
deriving DecidableEq, Repr

/-- The script dictionary produced by `generate_script`. -/
structure ScriptData where
  title : String
  sections : List D3Section
deriving DecidableEq, Repr

/-- The lines of the f-string template of
`generate_interactive_page.generate_interactive_final_page`, with the single
interpolation `{total_sections}` filled in (`\x7b` and `\x7d` denote the
literal braces produced by the doubled braces of the f-string). -/
def pageHtmlLines (total_sections : ℕ) : List String :=
  ["<!DOCTYPE html>",
   "<html lang=\"en\">",
   "<head>",
   "    <meta charset=\"UTF-8\">",
   "    <title>Interactive Learning Page</title>",
   "    <style>",
   "        body \x7b margin: 0; padding: 0; \x7d",
   "        #container \x7b display: flex; height: 100vh; \x7d",
   "        video, iframe \x7b width: 50%; height: 100%; border: none; \x7d",
   "        #controls \x7b",
   "            position: fixed;",
   "            bottom: 10px;",
   "            left: 50%;",
   "            transform: translateX(-50%);",
   "            z-index: 10;",
   "        \x7d",
   "        button \x7b",
   "            padding: 10px 20px;",
   "            margin: 0 5px;",
   "            font-size: 16px;",
   "            cursor: pointer;",
   "        \x7d",
   "    </style>",
   "</head>",
   "<body>",
   "<div id=\"container\">",
   "    <video id=\"video\" controls>",
   "        <source src=\"final_videos/complete_video.mp4\" type=\"video/mp4\">",
   "    </video>",
   "    <iframe id=\"d3-frame\" src=\"d3_visualizations/section_1.html\"></iframe>",
   "</div>",
   "<div id=\"controls\">",
   "    <button onclick=\"prevSection()\">⬅️ Previous</button>",
   "    <button onclick=\"nextSection()\">Next ➡️</button>",
   "</div>",
   "<script>",
   "    let currentSection = 0;",
   "    const totalSections = " ++ toString total_sections ++ ";",
   "    function updateD3() \x7b",
   "        document.getElementById(\x27d3-frame\x27).src = `d3_visualizations/section_$\x7bcurrentSection+1\x7d.html`;",
   "    \x7d",
   "    function nextSection() \x7b",
   "        if (currentSection < totalSections - 1) \x7b",
   "            currentSection++;",
   "            updateD3();",
   "        \x7d",
   "    \x7d",
   "    function prevSection() \x7b",
   "        if (currentSection > 0) \x7b",
   "            currentSection--;",
   "            updateD3();",
   "        \x7d",
   "    \x7d",
   "</script>",
   "</body>",
   "</html>"]

/-- The rendered `html_content` template. -/
def pageHtml (total_sections : ℕ) : String :=
  String.intercalate "\n" (pageHtmlLines total_sections)

/-- `generate_interactive_final_page(script_data, output_path)`.  The
filesystem is the oracle `d3Exists` (whether `d3_visualizations/section_i.html`
exists) and `writeOk` (whether writing `output_path` succeeds); the `for i in
range(1, total_sections + 1)` existence check raises `FileNotFoundError` at
the first missing file, and every exception is caught and turned into `None`.
No generative-language API is consulted anywhere in the function. -/
def generate_interactive_final_page (d3Exists : ℕ → Bool) (writeOk : Bool)
    (script_data : ScriptData) : Option String :=
  let total_sections := script_data.sections.length
  if (List.range total_sections).all (fun i => d3Exists (i + 1)) then
    (if writeOk then some (pageHtml total_sections) else none)
  else none

/-- C1 (counterexample): two scripts with the same number of sections but
entirely different titles, texts and visualization types yield the very same
HTML, which is therefore *not* produced by a generative-language call — it is
determined solely by the number of sections, contradicting the claim. -/
theorem interactive_page_no_llm_cex :
    generate_interactive_final_page (fun _ => true) true
        ⟨"Newton", [⟨"Section about inertia", "inertia_demo"⟩]⟩
      = generate_interactive_final_page (fun _ => true) true
        ⟨"Thermodynamics", [⟨"Completely different text", "comparison_demo"⟩]⟩
    ∧ (generate_interactive_final_page (fun _ => true) true
        ⟨"Newton", [⟨"Section about inertia", "inertia_demo"⟩]⟩).isSome = true :=
  ⟨rfl, rfl⟩

/-- C1 (amended): the interactive final page is produced by a fixed HTML
template with no generative-language call; for every script_data the result of
`generate_interactive_final_page` is determined solely by the number of
sections in script_data (together with the filesystem oracles). -/
theorem interactive_page_section_count_det (d3Exists : ℕ → Bool)
    (writeOk : Bool) (s1 s2 : ScriptData)
    (h : s1.sections.length = s2.sections.length) :
    generate_interactive_final_page d3Exists writeOk s1
      = generate_interactive_final_page d3Exists writeOk s2 := by
  unfold generate_interactive_final_page
  rw [h]

/-- Witness for the amended C1 theorem at concrete inputs. -/
theorem interactive_page_section_count_det_witness :
    ([⟨"inertia text", "inertia_demo"⟩] : List D3Section).length
        = ([⟨"other text", "fma_calculator"⟩] : List D3Section).length
    ∧ generate_interactive_final_page (fun _ => false) true
        ⟨"A", [⟨"inertia text", "inertia_demo"⟩]⟩
      = generate_interactive_final_page (fun _ => false) true
        ⟨"B", [⟨"other text", "fma_calculator"⟩]⟩ :=
  ⟨rfl, interactive_page_section_count_det (fun _ => false) true
    ⟨"A", [⟨"inertia text", "inertia_demo"⟩]⟩
    ⟨"B", [⟨"other text", "fma_calculator"⟩]⟩ rfl⟩

/-! ## Master.py -/

/-- A section dictionary as consumed by `Master.process_section`. -/
structure MSection where
  title : String
  text : String
  visualization_type : String
deriving DecidableEq, Repr

/-- The script dictionary passed to `generate_final_outputs`. -/
structure Script where
  sections : List MSection
deriving DecidableEq, Repr

/-- The `(i, section)` argument pairs of the `executor.submit(process_section,
i, section)` calls made by `generate_final_outputs`, one per element of
`enumerate(script["sections"])`. -/
def finalOutputTasks (script : Script) : List (ℕ × MSection) :=
  script.sections.enum

/-- The worker count of the `ProcessPoolExecutor(max_workers=min(8,
len(script["sections"])))` created by `generate_final_outputs`. -/
def finalOutputMaxWorkers (script : Script) : ℕ :=
  min 8 script.sections.length

/-- C3: for a script with `n ≥ 1` sections, `generate_final_outputs` submits
exactly one `process_section` task per section — `n` tasks, the `i`-th being
`(i, sections[i])` — to a pool of `min 8 n` workers, and distinct tasks get
distinct inputs (each receives only its own index and section). -/
theorem generate_final_outputs_tasks (script : Script)
    (hn : 1 ≤ script.sections.length) :
    (finalOutputTasks script).length = script.sections.length
    ∧ (∀ i s, script.sections.get? i = some s →
        (finalOutputTasks script).get? i = some (i, s))
    ∧ finalOutputMaxWorkers script = min 8 script.sections.length
    ∧ (∀ i j ti tj, (finalOutputTasks script).get? i = some ti →
        (finalOutputTasks script).get? j = some tj → i ≠ j → ti.1 ≠ tj.1) := by
  refine ⟨List.enum_length, ?_, rfl, ?_⟩
  · intro i s hs
    simp only [finalOutputTasks]
    rw [List.get?_enum, hs]
    rfl
  · intro i j ti tj hti htj hij
    simp only [finalOutputTasks] at hti htj
    rw [List.get?_enum] at hti htj
    rcases hsi : script.sections.get? i with - | si <;> rw [hsi] at hti
    · simp at hti
    rcases hsj : script.sections.get? j with - | sj <;> rw [hsj] at htj
    · simp at htj
    obtain rfl : (i, si) = ti := by simpa using hti
    obtain rfl : (j, sj) = tj := by simpa using htj
    exact hij

/-- Witness for C3 at a concrete two-section script. -/
theorem generate_final_outputs_tasks_witness :
    1 ≤ ([⟨"t0", "a", "inertia_demo"⟩, ⟨"t1", "b", "comparison_demo"⟩]
          : List MSection).length
    ∧ (finalOutputTasks
        ⟨[⟨"t0", "a", "inertia_demo"⟩, ⟨"t1", "b", "comparison_demo"⟩]⟩).length
      = ([⟨"t0", "a", "inertia_demo"⟩, ⟨"t1", "b", "comparison_demo"⟩]
          : List MSection).length :=
  ⟨by decide,
    (generate_final_outputs_tasks
      ⟨[⟨"t0", "a", "inertia_demo"⟩, ⟨"t1", "b", "comparison_demo"⟩]⟩
      (by decide)).1⟩

/-- Abstract content of one of the output directories: either material left
over from an earlier run (tagged) or a freshly created empty directory. -/
inductive DirContent
  | old (tag : ℕ)
  | fresh
deriving DecidableEq, Repr

/-- The filesystem state seen by `cleanup_previous_run`: each directory either
absent (`none`) or present with some content, and each file present or not. -/
structure FsState where
  dirs : String → Option DirContent
  files : String → Bool

/-- The four directories listed in `dirs_to_clear`. -/
def dirsToClear : List String :=
  ["audio", "final_videos", "d3_visualizations", "temp_files"]

/-- The three files listed in `files_to_clear`. -/
def filesToClear : List String :=
  ["output_script.json", "interactive_page.html", "d3_standalone.html"]

/-- The per-directory body of `cleanup_previous_run`: if the directory exists,
`shutil.rmtree` is attempted for `attempt in range(3)` (unrolled here: the
oracle `ok` gives each attempt's outcome), breaking at the first success;
afterwards `os.makedirs(directory, exist_ok=True)` runs unconditionally.
Returns the resulting directory content and the number of rmtree attempts. -/
def cleanupDir (ok : ℕ → Bool) (d : Option DirContent) :
    Option DirContent × ℕ :=
  match d with
  | none => (some DirContent.fresh, 0)
  | some c =>
    if ok 0 then (some DirContent.fresh, 1)
    else if ok 1 then (some DirContent.fresh, 2)
    else if ok 2 then (some DirContent.fresh, 3)
    else (some c, 3)

/-- The per-file body of `cleanup_previous_run`: one `os.remove` attempt when
the file exists, its exception swallowed.  Returns presence afterwards and the
number of attempts. -/
def cleanupFile (ok : Bool) (present : Bool) : Bool × ℕ :=
  if present then (if ok then (false, 1) else (true, 1)) else (false, 0)

/-- `Master.cleanup_previous_run`, acting on the filesystem state: every
directory in `dirs_to_clear` and file in `files_to_clear` is processed as
above; nothing else is touched. -/
def cleanup_previous_run (rmtreeOk : String → ℕ → Bool)
    (removeOk : String → Bool) (st : FsState) : FsState :=
  { dirs := fun name =>
      if name ∈ dirsToClear then
        (cleanupDir (rmtreeOk name) (st.dirs name)).1
      else st.dirs name,
    files := fun name =>
      if name ∈ filesToClear then
        (cleanupFile (removeOk name) (st.files name)).1
      else st.files name }

/-- C4 (counterexample): when every `rmtree` attempt on `audio` fails, the
directory still holds its old content when `cleanup_previous_run` returns
(`makedirs(exist_ok=True)` is a no-op on an existing directory), so the
listed directories are not always freshly recreated as claimed. -/
theorem cleanup_stale_dir_cex :
    (cleanup_previous_run (fun _ _ => false) (fun _ => false)
        ⟨fun _ => some (DirContent.old 0), fun _ => false⟩).dirs "audio"
      = some (DirContent.old 0)
    ∧ some (DirContent.old 0) ≠ some DirContent.fresh := by
  decide

/-- The directory content after cleanup is always present. -/
theorem cleanupDir_isSome (ok : ℕ → Bool) (d : Option DirContent) :
    ((cleanupDir ok d).1).isSome = true := by
  cases d with
  | none => rfl
  | some c =>
    simp only [cleanupDir]
    split_ifs <;> rfl

/-- At most three rmtree attempts are made per directory. -/
theorem cleanupDir_attempts_le (ok : ℕ → Bool) (d : Option DirContent) :
    (cleanupDir ok d).2 ≤ 3 := by
  cases d with
  | none => simp [cleanupDir]
  | some c =>
    simp only [cleanupDir]
    split_ifs <;> simp

/-- The retry loop stops at the first successful attempt. -/
theorem cleanupDir_stops_early (ok : ℕ → Bool) (d : Option DirContent)
    (k : ℕ) (hk : k < 3) (hok : ok k = true) :
    (cleanupDir ok d).2 ≤ k + 1 := by
  cases d with
  | none => simp [cleanupDir]
  | some c =>
    simp only [cleanupDir]
    split_ifs with h0 h1 h2
    · omega
    · rcases k with - | - | - | k
      · exact absurd hok (by simp [h0])
      all_goals simp
    · rcases k with - | - | - | k
      · exact absurd hok (by simp [h0])
      · exact absurd hok (by simp [h1])
      all_goals simp
    · rcases k with - | - | - | k
      · exact absurd hok (by simp [h0])
      · exact absurd hok (by simp [h1])
      · exact absurd hok (by simp [h2])
      · omega

/-- When the directory was absent or some attempt succeeds, the directory is
freshly recreated. -/
theorem cleanupDir_fresh (ok : ℕ → Bool) (d : Option DirContent)
    (h : d = none ∨ ∃ k, k < 3 ∧ ok k = true) :
    (cleanupDir ok d).1 = some DirContent.fresh := by
  cases d with
  | none => rfl
  | some c =>
    simp only [cleanupDir]
    split_ifs with h0 h1 h2
    · rfl
    · rfl
    · rfl
    · rcases h with h | ⟨k, hk, hok⟩
      · exact absurd h (by simp)
      · rcases k with - | - | - | k
        · exact absurd hok (by simp [h0])
        · exact absurd hok (by simp [h1])
        · exact absurd hok (by simp [h2])
        · omega

/-- C4 (amended): `cleanup_previous_run` attempts removal of each listed
directory at most 3 times, stopping at the first success; on return every
listed directory exists, and it is freshly recreated whenever it was absent
or some removal attempt succeeded (if all three attempts fail the old
directory is left in place); each listed file gets at most one removal
attempt, which removes it when it succeeds. -/
theorem cleanup_previous_run_spec (rmtreeOk : String → ℕ → Bool)
    (removeOk : String → Bool) (st : FsState) :
    (∀ name ∈ dirsToClear,
        ((cleanup_previous_run rmtreeOk removeOk st).dirs name).isSome = true
      ∧ (cleanupDir (rmtreeOk name) (st.dirs name)).2 ≤ 3
      ∧ (∀ k, k < 3 → rmtreeOk name k = true →
          (cleanupDir (rmtreeOk name) (st.dirs name)).2 ≤ k + 1)
      ∧ ((st.dirs name = none ∨ ∃ k, k < 3 ∧ rmtreeOk name k = true) →
          (cleanup_previous_run rmtreeOk removeOk st).dirs name
            = some DirContent.fresh))
    ∧ (∀ f ∈ filesToClear,
        (cleanupFile (removeOk f) (st.files f)).2 ≤ 1
      ∧ (removeOk f = true →
          (cleanup_previous_run rmtreeOk removeOk st).files f = false)) := by
  constructor
  · intro name hmem
    have hif : (cleanup_previous_run rmtreeOk removeOk st).dirs name
        = (cleanupDir (rmtreeOk name) (st.dirs name)).1 := by
      simp [cleanup_previous_run, hmem]
    refine ⟨?_, cleanupDir_attempts_le _ _, ?_, ?_⟩
    · rw [hif]
      exact cleanupDir_isSome _ _
    · intro k hk hok
      exact cleanupDir_stops_early _ _ k hk hok
    · intro h
      rw [hif]
      exact cleanupDir_fresh _ _ h
  · intro f hmem
    have hif : (cleanup_previous_run rmtreeOk removeOk st).files f
        = (cleanupFile (removeOk f) (st.files f)).1 := by
      simp [cleanup_previous_run, hmem]
    constructor
    · unfold cleanupFile
      split_ifs <;> omega
    · intro hok
      rw [hif]
      rcases hsf : st.files f with - | - <;> simp [cleanupFile, hok, hsf]

/-- Witness for the amended C4 theorem: with removal succeeding on the second
attempt, the `audio` directory is freshly recreated. -/
theorem cleanup_previous_run_spec_witness :
    "audio" ∈ dirsToClear
    ∧ ((fun _ => some (DirContent.old 7) : String → Option DirContent) "audio"
          = none
        ∨ ∃ k, k < 3 ∧ (fun _ k => decide (k = 1) : String → ℕ → Bool) "audio" k
          = true)
    ∧ (cleanup_previous_run (fun _ k => decide (k = 1)) (fun _ => true)
        ⟨fun _ => some (DirContent.old 7), fun _ => true⟩).dirs "audio"
      = some DirContent.fresh :=
  ⟨by decide, Or.inr ⟨1, by decide, by decide⟩,
    ((cleanup_previous_run_spec (fun _ k => decide (k = 1)) (fun _ => true)
        ⟨fun _ => some (DirContent.old 7), fun _ => true⟩).1 "audio"
      (by decide)).2.2.2 (Or.inr ⟨1, by decide, by decide⟩)⟩

/-! ## main.py (browser-UI Flask app) -/

/-- The fields of the global `generation_status` dictionary manipulated by
`simulate_generation` that the verified properties mention. -/
structure GenStatus where
  in_progress : Bool
  completed : Bool
  progress : ℤ
  message : String
deriving DecidableEq, Repr

/-- `min(100, int((elapsed / 120) * 100))` in exact arithmetic; the elapsed
time is non-negative, so Python `int` truncation is the floor. -/
def progressOf (e : ℚ) : ℤ := min 100 ⌊e / 120 * 100⌋

/-- The message chosen by the `if progress < 30 / < 60 / < 90 / else` chain
inside the simulation loop. -/
def stageMessage (p : ℤ) : String :=
  if p < 30 then "Preparing content..."
  else if p < 60 then "Generating visuals..."
  else if p < 90 then "Rendering video..."
  else "Finalizing output..."

/-- The value of `generation_status` after one body iteration of the
`while (datetime.now() - start_time).total_seconds() < 120` loop whose
observed elapsed time is `e`. -/
def simulateBody (e : ℚ) : GenStatus :=
  { in_progress := true, completed := false, progress := progressOf e,
    message := stageMessage (progressOf e) }

/-- The status set by the initialisation block of `simulate_generation`. -/
def initStatus : GenStatus :=
  { in_progress := true, completed := false, progress := 0,
    message := "Starting simulation..." }

/-- The status after the post-loop block (`completed = True`, message,
`progress = 100`), before the `finally` clause runs. -/
def doneStatus : GenStatus :=
  { in_progress := true, completed := true, progress := 100,
    message := "Simulation complete!" }

/-- The status after the `finally` clause clears `in_progress`. -/
def finalStatus : GenStatus :=
  { in_progress := false, completed := true, progress := 100,
    message := "Simulation complete!" }

/-- `simulate_generation`, run to normal completion.  The elapsed-seconds
values sampled by the successive loop iterations are supplied as `samples`
(wall-clock time is external input).  The result is the trace of
`generation_status` states: after initialisation, after each loop iteration,
after the post-loop completion block, and after the `finally` block. -/
def simulateTrace (samples : List ℚ) : List GenStatus :=
  initStatus :: (samples.map simulateBody ++ [doneStatus, finalStatus])

/-- The loop never reports more than 100%. -/
theorem progressOf_le (e : ℚ) : progressOf e ≤ 100 :=
  min_le_left _ _

/-- The loop never reports a negative percentage for non-negative elapsed
time. -/
theorem progressOf_nonneg {e : ℚ} (he : 0 ≤ e) : 0 ≤ progressOf e := by
  refine le_min (by norm_num) (Int.le_floor.mpr ?_)
  have : (0 : ℚ) ≤ e / 120 * 100 :=
    mul_nonneg (div_nonneg he (by norm_num)) (by norm_num)
  exact_mod_cast this

/-- The reported percentage is monotone in elapsed time. -/
theorem progressOf_mono {e e' : ℚ} (h : e ≤ e') :
    progressOf e ≤ progressOf e' :=
  min_le_min le_rfl (Int.floor_le_floor (by linarith))

/-- Everything in the trace keeps progress within bounds. -/
theorem simulateTrace_mem_bounds (samples : List ℚ)
    (h0 : ∀ e ∈ samples, 0 ≤ e) :
    ∀ s ∈ simulateTrace samples, 0 ≤ s.progress ∧ s.progress ≤ 100 := by
  intro s hs
  simp only [simulateTrace, List.mem_cons, List.mem_append, List.mem_map] at hs
  rcases hs with rfl | ⟨⟨e, he, rfl⟩ | hs⟩
  · constructor <;> simp [initStatus]
  · exact ⟨progressOf_nonneg (h0 e he), progressOf_le e⟩
  · rcases hs with rfl | hs
    · constructor <;> simp [doneStatus]
    · rcases hs with rfl | hs
      · constructor <;> simp [finalStatus]
      · simp at hs

/-- C5: throughout any normally-finishing run of `simulate_generation` with
non-negative, non-decreasing elapsed-time samples, the recorded progress is
an integer between 0 and 100 that never decreases between successive updates,
and the final status has progress 100, completed true and in_progress
false. -/
theorem simulate_generation_progress_spec (samples : List ℚ)
    (h0 : ∀ e ∈ samples, 0 ≤ e)
    (hmono : samples.Chain' (· ≤ ·)) :
    (∀ s ∈ simulateTrace samples, 0 ≤ s.progress ∧ s.progress ≤ 100)
    ∧ (simulateTrace samples).Chain' (fun a b => a.progress ≤ b.progress)
    ∧ (simulateTrace samples).getLast? = some finalStatus := by
  refine ⟨simulateTrace_mem_bounds samples h0, ?_, ?_⟩
  · rw [simulateTrace, List.chain'_cons']
    constructor
    · intro y hy
      have hymem := List.mem_of_mem_head? hy
      have hb := simulateTrace_mem_bounds samples h0 y
        (by simp only [simulateTrace, List.mem_cons]; exact Or.inr hymem)
      show initStatus.progress ≤ y.progress
      simp only [initStatus]
      exact hb.1
    · rw [List.chain'_append]
      refine ⟨?_, ?_, ?_⟩
      · rw [List.chain'_map]
        exact hmono.imp fun a b h => progressOf_mono h
      · simp [List.chain'_cons, doneStatus, finalStatus]
      · intro x hx y hy
        have hx' := List.mem_of_mem_getLast? hx
        obtain ⟨e, -, rfl⟩ := List.mem_map.mp hx'
        rw [List.head?_cons, Option.mem_def, Option.some_inj] at hy
        subst hy
        show (simulateBody e).progress ≤ doneStatus.progress
        simp only [simulateBody, doneStatus]
        exact progressOf_le e
  · have hsplit : simulateTrace samples
        = (initStatus :: (samples.map simulateBody ++ [doneStatus]))
          ++ [finalStatus] := by
      simp [simulateTrace]
    rw [hsplit]
    exact List.getLast?_concat _

/-- Witness for C5 at the concrete sample list `[0, 60]`. -/
theorem simulate_generation_progress_spec_witness :
    (∀ e ∈ ([0, 60] : List ℚ), 0 ≤ e)
    ∧ ([0, 60] : List ℚ).Chain' (· ≤ ·)
    ∧ (simulateTrace [0, 60]).getLast? = some finalStatus :=
  ⟨by decide, by norm_num [List.chain'_cons],
   (simulate_generation_progress_spec [0, 60] (by decide)
     (by norm_num [List.chain'_cons])).2.2⟩

/-- A snapshot of the global state read by one iteration of the `/progress`
generator: the `generation_status` fields, plus the elapsed seconds since
`start_time` at the moment the event is built (`none` when `start_time` is
`None`). -/
structure GenSnapshot where
  in_progress : Bool
  completed : Bool
  progress : ℤ
  message : String
  elapsed : Option ℚ
deriving DecidableEq, Repr

/-- One server-sent event (the `data` dictionary serialised by the
generator). -/
structure SseEvent where
  status : String
  progress : ℤ
  message : String
  estimated_time : ℚ
deriving DecidableEq, Repr

/-- The event built from one snapshot: the status starts as `in_progress` or
`error` and is overwritten with `completed` when the completed flag is set;
the estimated time is `max(0, 120 - elapsed)` or the default `120`. -/
def eventOf (s : GenSnapshot) : SseEvent :=
  { status := if s.completed then "completed"
              else if s.in_progress then "in_progress" else "error",
    progress := s.progress,
    message := s.message,
    estimated_time := match s.elapsed with
      | some e => max 0 (120 - e)
      | none => 120 }

/-- The `/progress` `while True` generator over the successive snapshots it
observes: each iteration yields one event, and the loop breaks immediately
after yielding the event of the first snapshot whose completed flag is
set. -/
def progressStream : List GenSnapshot → List SseEvent
  | [] => []
  | s :: rest =>
    if s.completed then [eventOf s] else eventOf s :: progressStream rest

/-- The stream yields at most one event per observed snapshot. -/
theorem progressStream_length_le (snaps : List GenSnapshot) :
    (progressStream snaps).length ≤ snaps.length := by
  induction snaps with
  | nil => simp [progressStream]
  | cons s rest ih =>
    simp only [progressStream]
    split_ifs with hc
    · simp
    · simp only [List.length_cons]
      omega

/-- The `i`-th emitted event is the event of the `i`-th snapshot. -/
theorem progressStream_get? (snaps : List GenSnapshot) (i : ℕ)
    (e : SseEvent) (he : (progressStream snaps).get? i = some e) :
    ∃ s, snaps.get? i = some s ∧ e = eventOf s := by
  induction snaps generalizing i with
  | nil => simp [progressStream] at he
  | cons s rest ih =>
    simp only [progressStream] at he
    split_ifs at he with hc
    · rcases i with - | i
      · simp only [List.get?] at he ⊢
        exact ⟨s, rfl, by injection he with h; exact h.symm⟩
      · simp [List.get?] at he
    · rcases i with - | i
      · simp only [List.get?] at he ⊢
        exact ⟨s, rfl, by injection he with h; exact h.symm⟩
      · simp only [List.get?] at he ⊢
        exact ih i he

/-- An event of a not-yet-completed snapshot never carries the completed
status. -/
theorem eventOf_status_completed (s : GenSnapshot) :
    (eventOf s).status = "completed" ↔ s.completed = true := by
  rcases hc : s.completed
  · rcases hp : s.in_progress <;> simp [eventOf, hc, hp]
  · simp [eventOf, hc]

/-- A completed event is the last event of the stream. -/
theorem progressStream_completed_last (snaps : List GenSnapshot) (i : ℕ)
    (e : SseEvent) (he : (progressStream snaps).get? i = some e)
    (hc : e.status = "completed") :
    i + 1 = (progressStream snaps).length := by
  induction snaps generalizing i with
  | nil => simp [progressStream] at he
  | cons s rest ih =>
    simp only [progressStream] at he ⊢
    split_ifs at he ⊢ with hs
    · rcases i with - | i
      · rfl
      · simp [List.get?] at he
    · rcases i with - | i
      · simp only [List.get?] at he
        have : e = eventOf s := by injection he with h; exact h.symm
        subst this
        rw [eventOf_status_completed] at hc
        exact absurd hc (by simp [hs])
      · simp only [List.get?] at he
        have := ih i he
        simp only [List.length_cons]
        omega

/-- C6: every `/progress` event of a running, not-yet-completed snapshot has
status `in_progress`; an event has status `completed` exactly when the
completed flag was set in its snapshot; and the stream terminates immediately
after its first `completed` event — no event follows it. -/
theorem progress_stream_spec (snaps : List GenSnapshot) :
    (progressStream snaps).length ≤ snaps.length
    ∧ (∀ i e, (progressStream snaps).get? i = some e →
        ∃ s, snaps.get? i = some s ∧ e = eventOf s
          ∧ (s.in_progress = true → s.completed = false →
              e.status = "in_progress")
          ∧ (e.status = "completed" ↔ s.completed = true))
    ∧ (∀ i e, (progressStream snaps).get? i = some e →
        e.status = "completed" → i + 1 = (progressStream snaps).length) := by
  refine ⟨progressStream_length_le snaps, ?_, ?_⟩
  · intro i e he
    obtain ⟨s, hs, rfl⟩ := progressStream_get? snaps i e he
    refine ⟨s, hs, rfl, ?_, eventOf_status_completed s⟩
    intro hp hc
    simp [eventOf, hp, hc]
  · intro i e he hc
    exact progressStream_completed_last snaps i e he hc

/-- Witness for C6 at a concrete two-snapshot run: the second snapshot is
completed, its event carries status `completed`, and it closes the stream. -/
theorem progress_stream_spec_witness :
    ((progressStream
        [⟨true, false, 10, "Preparing content...", some 12⟩,
         ⟨true, true, 100, "Simulation complete!", some 120⟩]).get? 1
      = some (eventOf ⟨true, true, 100, "Simulation complete!", some 120⟩))
    ∧ 1 + 1 = (progressStream
        [⟨true, false, 10, "Preparing content...", some 12⟩,
         ⟨true, true, 100, "Simulation complete!", some 120⟩]).length :=
  ⟨rfl,
   (progress_stream_spec
      [⟨true, false, 10, "Preparing content...", some 12⟩,
       ⟨true, true, 100, "Simulation complete!", some 120⟩]).2.2 1
      (eventOf ⟨true, true, 100, "Simulation complete!", some 120⟩) rfl rfl⟩

/-! ## generate_video.py and cloudrun/generate_video.py -/

/-- A Python value passed in a `video_list`: a string path or anything
else (only `isinstance(v, str)` is inspected). -/
inductive PyVal
  | str (s : String)
  | other (tag : ℕ)
deriving DecidableEq, Repr

/-- Whether the value is a Python string. -/
def PyVal.isStr : PyVal → Bool
  | .str _ => true
  | .other _ => false

/-- What `VideoFileClip(path)` does for an existing file: raise, or produce a
clip of the given duration. -/
inductive LoadOutcome
  | raise
  | clip (duration : ℚ)
deriving DecidableEq, Repr

/-- The clip-collection loop shared by both copies of `concatenate_videos`:
missing files are skipped, loader exceptions are caught and skipped, and only
clips with `duration > 0` are kept.  `fs path = none` means the file does not
exist.  (The non-string case is unreachable behind the `isinstance` guard.) -/
def collectClips (fs : String → Option LoadOutcome) : List PyVal → List ℚ
  | [] => []
  | .str p :: rest =>
    match fs p with
    | none => collectClips fs rest
    | some .raise => collectClips fs rest
    | some (.clip d) =>
      if 0 < d then d :: collectClips fs rest else collectClips fs rest
  | .other _ :: rest => collectClips fs rest

/-- `generate_video.concatenate_videos` (the copy imported by Master.py):
guards for an empty list and for non-string entries, collects valid clips,
fails when none remain, then writes the concatenation (`writeOk` is whether
`concatenate_videoclips` + `write_videofile` succeed; any exception there is
caught and turns the result into `False`). -/
def concatenate_videos_main (fs : String → Option LoadOutcome)
    (writeOk : Bool) (video_list : List PyVal) (output_path : String) : Bool :=
  if video_list.isEmpty then false
  else if !(video_list.all PyVal.isStr) then false
  else if (collectClips fs video_list).isEmpty then false
  else writeOk

/-- `cloudrun/generate_video.concatenate_videos`: the cloud-service copy,
transcribed separately from its own source text. -/
def concatenate_videos_cloudrun (fs : String → Option LoadOutcome)
    (writeOk : Bool) (video_list : List PyVal) (output_path : String) : Bool :=
  if video_list.isEmpty then false
  else if !(video_list.all PyVal.isStr) then false
  else if (collectClips fs video_list).isEmpty then false
  else writeOk

/-- C8: the two copies of `concatenate_videos` are behaviourally equivalent,
and both return `False` on an empty list, on a list containing a non-string
element, and when no listed file yields a valid clip. -/
theorem concatenate_videos_copies_equiv (fs : String → Option LoadOutcome)
    (writeOk : Bool) (video_list : List PyVal) (output_path : String) :
    concatenate_videos_main fs writeOk video_list output_path
      = concatenate_videos_cloudrun fs writeOk video_list output_path
    ∧ (video_list = [] →
        concatenate_videos_main fs writeOk video_list output_path = false)
    ∧ ((∃ v ∈ video_list, v.isStr = false) →
        concatenate_videos_main fs writeOk video_list output_path = false
        ∧ concatenate_videos_cloudrun fs writeOk video_list output_path = false)
    ∧ (collectClips fs video_list = [] →
        concatenate_videos_main fs writeOk video_list output_path = false
        ∧ concatenate_videos_cloudrun fs writeOk video_list output_path
          = false) := by
  refine ⟨rfl, ?_, ?_, ?_⟩
  · rintro rfl
    rfl
  · rintro ⟨v, hv, hstr⟩
    have hall : video_list.all PyVal.isStr = false := by
      rw [List.all_eq_false]
      exact ⟨v, hv, by simp [hstr]⟩
    constructor <;>
      simp [concatenate_videos_main, concatenate_videos_cloudrun, hall]
  · intro hclips
    have hempty : (collectClips fs video_list).isEmpty = true := by
      simp [hclips]
    constructor <;>
      simp [concatenate_videos_main, concatenate_videos_cloudrun, hempty]

/-- Witness for C8: a list holding a missing file and a zero-length clip
yields no valid clip, and both copies reject it. -/
theorem concatenate_videos_copies_equiv_witness :
    collectClips
        (fun p => if p = "a.mp4" then some (LoadOutcome.clip 0) else none)
        [PyVal.str "a.mp4", PyVal.str "b.mp4"] = []
    ∧ concatenate_videos_main
        (fun p => if p = "a.mp4" then some (LoadOutcome.clip 0) else none)
        true [PyVal.str "a.mp4", PyVal.str "b.mp4"] "out.mp4" = false
    ∧ concatenate_videos_cloudrun
        (fun p => if p = "a.mp4" then some (LoadOutcome.clip 0) else none)
        true [PyVal.str "a.mp4", PyVal.str "b.mp4"] "out.mp4" = false :=
  ⟨by decide,
   ((concatenate_videos_copies_equiv
      (fun p => if p = "a.mp4" then some (LoadOutcome.clip 0) else none)
      true [PyVal.str "a.mp4", PyVal.str "b.mp4"] "out.mp4").2.2.2
      (by decide)).1,
   ((concatenate_videos_copies_equiv
      (fun p => if p = "a.mp4" then some (LoadOutcome.clip 0) else none)
      true [PyVal.str "a.mp4", PyVal.str "b.mp4"] "out.mp4").2.2.2
      (by decide)).2⟩

/-! ## cloudrun/generate_video.py `/final_video` endpoint -/

/-- The JSON body returned by the endpoint. -/
structure JsonResp where
  status : String
  message : Option String
  url : Option String
deriving DecidableEq, Repr

/-- The request body seen through `request.json` / `data.get("video_list",
[])`: `none` when there is no JSON object (so `data.get` raises), `some none`
when the object lacks the `video_list` key, `some (some l)` otherwise. -/
def VideoRequest : Type := Option (Option (List PyVal))

/-- `final_video_endpoint`: the whole handler body runs inside `try`, so any
raised exception yields a 500 `error` response.  `fs`/`writeOk` feed the call
to `concatenate_videos`, `makedirsOk` is whether `os.makedirs` succeeds, and
`upload` is the outcome of `upload_to_gcs` (`Except.error` = exception). -/
def final_video_endpoint (fs : String → Option LoadOutcome) (writeOk : Bool)
    (makedirsOk : Bool) (upload : Except String String)
    (req : VideoRequest) : ℕ × JsonResp :=
  match req with
  | none => (500, ⟨"error", some "json body missing", none⟩)
  | some jd =>
    let video_list := jd.getD []
    if video_list.isEmpty then
      (400, ⟨"error", some "No video list provided", none⟩)
    else if !makedirsOk then
      (500, ⟨"error", some "makedirs failed", none⟩)
    else if !(concatenate_videos_cloudrun fs writeOk video_list
        "final_videos/complete_video.mp4") then
      (500, ⟨"error", some "Video concatenation failed", none⟩)
    else
      match upload with
      | .error msg => (500, ⟨"error", some msg, none⟩)
      | .ok publicUrl => (200, ⟨"success", none, some publicUrl⟩)

/-- C7: the `/final_video` endpoint returns 400 with status `error` when the
body lacks a `video_list` key or the list is empty; 500 with status `error`
when concatenation fails and whenever an exception is raised — a missing
JSON body, a raising `os.makedirs` (reached when the list is non-empty), or
a raising `upload_to_gcs` (reached when concatenation succeeded); otherwise
200 with status `success` and the uploaded video's public URL; and it never
returns 200 when concatenation failed. -/
theorem final_video_endpoint_spec (fs : String → Option LoadOutcome)
    (writeOk : Bool) (makedirsOk : Bool) (upload : Except String String)
    (req : VideoRequest) :
    ((req = some none ∨ req = some (some [])) →
        (final_video_endpoint fs writeOk makedirsOk upload req).1 = 400
        ∧ (final_video_endpoint fs writeOk makedirsOk upload req).2.status
          = "error")
    ∧ (∀ l, l ≠ [] → req = some (some l) → makedirsOk = true →
        concatenate_videos_cloudrun fs writeOk l
          "final_videos/complete_video.mp4" = false →
        (final_video_endpoint fs writeOk makedirsOk upload req).1 = 500
        ∧ (final_video_endpoint fs writeOk makedirsOk upload req).2.status
          = "error")
    ∧ ((req = none ∨ makedirsOk = false ∨ (∃ msg, upload = .error msg)) →
        (final_video_endpoint fs writeOk makedirsOk upload req).1 ≠ 200)
    ∧ (∀ l publicUrl, l ≠ [] → req = some (some l) → makedirsOk = true →
        concatenate_videos_cloudrun fs writeOk l
          "final_videos/complete_video.mp4" = true →
        upload = .ok publicUrl →
        final_video_endpoint fs writeOk makedirsOk upload req
          = (200, ⟨"success", none, some publicUrl⟩))
    ∧ (∀ l, req = some (some l) →
        (final_video_endpoint fs writeOk makedirsOk upload req).1 = 200 →
        concatenate_videos_cloudrun fs writeOk l
          "final_videos/complete_video.mp4" = true)
    ∧ (req = none →
        (final_video_endpoint fs writeOk makedirsOk upload req).1 = 500
        ∧ (final_video_endpoint fs writeOk makedirsOk upload req).2.status
          = "error")
    ∧ (∀ l, l ≠ [] → req = some (some l) → makedirsOk = false →
        (final_video_endpoint fs writeOk makedirsOk upload req).1 = 500
        ∧ (final_video_endpoint fs writeOk makedirsOk upload req).2.status
          = "error")
    ∧ (∀ l msg, l ≠ [] → req = some (some l) → makedirsOk = true →
        concatenate_videos_cloudrun fs writeOk l
          "final_videos/complete_video.mp4" = true →
        upload = .error msg →
        (final_video_endpoint fs writeOk makedirsOk upload req).1 = 500
        ∧ (final_video_endpoint fs writeOk makedirsOk upload req).2.status
          = "error") := by
  refine ⟨?_, ?_, ?_, ?_, ?_, ?_, ?_, ?_⟩
  · rintro (rfl | rfl) <;> exact ⟨rfl, rfl⟩
  · intro l hl hreq hmk hcat
    subst hreq
    have hne : (l.isEmpty) = false := by
      rcases l with - | ⟨v, vs⟩
      · exact absurd rfl hl
      · rfl
    simp [final_video_endpoint, hne, hmk, hcat]
  · rintro (rfl | hmk | ⟨msg, hupl⟩)
    · simp [final_video_endpoint]
    · subst hmk
      simp only [final_video_endpoint]
      rcases req with - | jd
      · simp
      · rcases hle : (jd.getD []).isEmpty <;> simp [hle]
    · subst hupl
      simp only [final_video_endpoint]
      rcases req with - | jd
      · simp
      · rcases hle : (jd.getD []).isEmpty <;>
          rcases hmk2 : makedirsOk <;>
            rcases hcat : concatenate_videos_cloudrun fs writeOk (jd.getD [])
              "final_videos/complete_video.mp4" <;>
              simp [hle, hmk2, hcat]
  · intro l publicUrl hl hreq hmk hcat hupl
    subst hreq
    subst hupl
    have hne : (l.isEmpty) = false := by
      rcases l with - | ⟨v, vs⟩
      · exact absurd rfl hl
      · rfl
    simp [final_video_endpoint, hne, hmk, hcat]
  · intro l hreq h200
    subst hreq
    by_contra hcat
    rw [Bool.not_eq_true] at hcat
    rcases hle : (l.isEmpty) <;> rcases hmk : makedirsOk <;>
      simp only [final_video_endpoint, Option.getD_some, hle, hmk, hcat,
        Bool.not_true, Bool.not_false, if_true, if_false] at h200 <;>
      simp at h200
  · rintro rfl
    exact ⟨rfl, rfl⟩
  · intro l hl hreq hmk
    subst hreq
    subst hmk
    have hne : (l.isEmpty) = false := by
      rcases l with - | ⟨v, vs⟩
      · exact absurd rfl hl
      · rfl
    simp [final_video_endpoint, hne]
  · intro l msg hl hreq hmk hcat hupl
    subst hreq
    subst hupl
    have hne : (l.isEmpty) = false := by
      rcases l with - | ⟨v, vs⟩
      · exact absurd rfl hl
      · rfl
    simp [final_video_endpoint, hne, hmk, hcat]

/-! ## text_animation.py -/

/-- `generate_scrolling_frames(text, frame_size, duration, fps)` in exact
arithmetic: `total_frames = int(duration * fps)` and frame `i` renders (via
`create_text_frame`) the revealed subtext `text[:int(full_length *
min(i / total_frames, 1.0))]`.  Each frame is modelled by the substring of
`text` it renders. -/
def generate_scrolling_frames (text : List Char) (duration : ℚ) (fps : ℕ) :
    List (List Char) :=
  let total_frames := (⌊duration * fps⌋).toNat
  (List.range total_frames).map fun (i : ℕ) =>
    text.take
      ((⌊(text.length : ℚ) * min ((i : ℚ) / (total_frames : ℚ)) 1⌋).toNat)

/-- C9: for positive duration, `generate_scrolling_frames` produces exactly
`int(duration * fps)` frames; frame `i` reveals the first
`int(len(text) * i / total_frames)` characters; and the revealed substrings
are monotone — an earlier frame's text is a prefix of any later frame's. -/
theorem generate_scrolling_frames_spec (text : List Char) (duration : ℚ)
    (fps : ℕ) (hd : 0 < duration) :
    (generate_scrolling_frames text duration fps).length
      = (⌊duration * fps⌋).toNat
    ∧ (∀ i, i < (⌊duration * fps⌋).toNat →
        (generate_scrolling_frames text duration fps).get? i
          = some (text.take
              ((⌊(text.length : ℚ) * i
                  / (((⌊duration * fps⌋).toNat : ℕ) : ℚ)⌋).toNat)))
    ∧ (∀ i j fi fj, i ≤ j →
        (generate_scrolling_frames text duration fps).get? i = some fi →
        (generate_scrolling_frames text duration fps).get? j = some fj →
        ∃ rest, fi ++ rest = fj) := by
  have hget : ∀ i, i < (⌊duration * fps⌋).toNat →
      (generate_scrolling_frames text duration fps).get? i
        = some (text.take
            ((⌊(text.length : ℚ) * i
                / (((⌊duration * fps⌋).toNat : ℕ) : ℚ)⌋).toNat)) := by
    intro i hi
    have hT : 0 < (⌊duration * fps⌋).toNat := Nat.pos_of_ne_zero (by omega)
    simp only [generate_scrolling_frames]
    rw [List.get?_map, List.get?_range hi]
    simp only [Option.map_some']
    congr 2
    have hTQ : (0 : ℚ) < ((⌊duration * fps⌋).toNat : ℚ) := by
      exact_mod_cast hT
    have hmin : min ((i : ℚ) / ((⌊duration * fps⌋).toNat : ℚ)) 1
        = (i : ℚ) / ((⌊duration * fps⌋).toNat : ℚ) := by
      refine min_eq_left ?_
      rw [div_le_one hTQ]
      exact_mod_cast le_of_lt hi
    rw [hmin, ← mul_div_assoc]
  refine ⟨by simp [generate_scrolling_frames], hget, ?_⟩
  intro i j fi fj hij hfi hfj
  have hjlen : j < (generate_scrolling_frames text duration fps).length := by
    obtain ⟨h, -⟩ := List.get?_eq_some.mp hfj
    exact h
  have hjT : j < (⌊duration * fps⌋).toNat := by
    simpa [generate_scrolling_frames] using hjlen
  have hiT : i < (⌊duration * fps⌋).toNat := lt_of_le_of_lt hij hjT
  rw [hget i hiT] at hfi
  rw [hget j hjT] at hfj
  have hfi' := Option.some_inj.mp hfi
  have hfj' := Option.some_inj.mp hfj
  have hTQ : (0 : ℚ) < ((⌊duration * fps⌋).toNat : ℚ) := by
    have : 0 < (⌊duration * fps⌋).toNat := Nat.pos_of_ne_zero (by omega)
    exact_mod_cast this
  have hab : ((⌊(text.length : ℚ) * i
        / (((⌊duration * fps⌋).toNat : ℕ) : ℚ)⌋).toNat)
      ≤ ((⌊(text.length : ℚ) * j
        / (((⌊duration * fps⌋).toNat : ℕ) : ℚ)⌋).toNat) := by
    refine Int.toNat_le_toNat (Int.floor_le_floor ?_)
    rw [div_le_div_iff_of_pos_right hTQ]
    refine mul_le_mul_of_nonneg_left ?_ (by positivity)
    exact_mod_cast hij
  refine ⟨(text.take ((⌊(text.length : ℚ) * j
      / (((⌊duration * fps⌋).toNat : ℕ) : ℚ)⌋).toNat)).drop
      ((⌊(text.length : ℚ) * i
      / (((⌊duration * fps⌋).toNat : ℕ) : ℚ)⌋).toNat), ?_⟩
  rw [← hfi', ← hfj']
  have htake : text.take ((⌊(text.length : ℚ) * i
      / (((⌊duration * fps⌋).toNat : ℕ) : ℚ)⌋).toNat)
      = (text.take ((⌊(text.length : ℚ) * j
      / (((⌊duration * fps⌋).toNat : ℕ) : ℚ)⌋).toNat)).take
        ((⌊(text.length : ℚ) * i
      / (((⌊duration * fps⌋).toNat : ℕ) : ℚ)⌋).toNat) := by
    rw [List.take_take, min_eq_left hab]
  rw [htake, List.take_append_drop]

/-- Witness for C9 at text `"ab"`, duration 2, fps 1. -/
theorem generate_scrolling_frames_spec_witness :
    (0 : ℚ) < 2
    ∧ (generate_scrolling_frames ['a', 'b'] 2 1).length
      = (⌊(2 : ℚ) * (1 : ℕ)⌋).toNat :=
  ⟨by norm_num, (generate_scrolling_frames_spec ['a', 'b'] 2 1 (by norm_num)).1⟩

/-! ## text_to_speech.py -/

/-- The audio path `os.path.join(AUDIO_DIR, f"audio_section_{i}.mp3")`. -/
def audio_path (section_index : ℕ) : String :=
  "audio/audio_section_" ++ toString section_index ++ ".mp3"

/-- The outcome of `tts.save(audio_path)`: completes writing a file of the
given size, or raises after possibly leaving a partially written file. -/
inductive TtsOutcome
  | ok (size : ℕ)
  | fail (written : Option ℕ)
deriving DecidableEq, Repr

/-- Point-update of the file system (files mapped to their size in bytes,
`none` = absent). -/
def setFile (fs : String → Option ℕ) (p : String) (v : Option ℕ) :
    String → Option ℕ :=
  fun q => if q = p then v else fs q

/-- The observable outcome of one `generate_audio` call: its return value,
the resulting file system, and whether an `os.remove` cleanup attempt was
made on the audio file. -/
structure AudioResult where
  result : Option String
  fs : String → Option ℕ
  removalAttempted : Bool

/-- `text_to_speech.generate_audio(text, section_index)`: empty or
whitespace-only text returns `None` immediately; an existing audio file is
reused; otherwise `tts.save` runs (outcome `tts`), a file smaller than 1000
bytes raises `IOError`, and the `except` block removes any file present at
the audio path (`removeOk` = whether that `os.remove` itself succeeds; its
own failure is swallowed). -/
def generate_audio (tts : TtsOutcome) (removeOk : Bool) (text : List Char)
    (section_index : ℕ) (fs : String → Option ℕ) : AudioResult :=
  if pyStrip text = [] then ⟨none, fs, false⟩
  else
    match fs (audio_path section_index) with
    | some _ => ⟨some (audio_path section_index), fs, false⟩
    | none =>
      match tts with
      | .ok size =>
        let fs1 := setFile fs (audio_path section_index) (some size)
        if size < 1000 then
          if removeOk then
            ⟨none, setFile fs1 (audio_path section_index) none, true⟩
          else ⟨none, fs1, true⟩
        else ⟨some (audio_path section_index), fs1, false⟩
      | .fail written =>
        let fs1 := setFile fs (audio_path section_index) written
        match written with
        | some _ =>
          if removeOk then
            ⟨none, setFile fs1 (audio_path section_index) none, true⟩
          else ⟨none, fs1, true⟩
        | none => ⟨none, fs1, false⟩

/-- C10: `generate_audio` returns `None` for empty or whitespace-only text
without touching any file, and whenever it returns `None` after a generation
error (a raising save, or a too-small written file) it attempts to remove the
partially written audio file when one exists; when no partial file exists
there is nothing to remove and the path stays absent. -/
theorem generate_audio_spec (tts : TtsOutcome) (removeOk : Bool)
    (text : List Char) (i : ℕ) (fs : String → Option ℕ) :
    (pyStrip text = [] →
        generate_audio tts removeOk text i fs = ⟨none, fs, false⟩)
    ∧ (pyStrip text ≠ [] → fs (audio_path i) = none →
        ∀ size, tts = .ok size → size < 1000 →
          (generate_audio tts removeOk text i fs).result = none
          ∧ (generate_audio tts removeOk text i fs).removalAttempted = true)
    ∧ (pyStrip text ≠ [] → fs (audio_path i) = none →
        ∀ s, tts = .fail (some s) →
          (generate_audio tts removeOk text i fs).result = none
          ∧ (generate_audio tts removeOk text i fs).removalAttempted = true)
    ∧ (pyStrip text ≠ [] → fs (audio_path i) = none → tts = .fail none →
          (generate_audio tts removeOk text i fs).result = none
          ∧ (generate_audio tts removeOk text i fs).removalAttempted = false
          ∧ (generate_audio tts removeOk text i fs).fs (audio_path i)
            = none) := by
  refine ⟨?_, ?_, ?_, ?_⟩
  · intro hstrip
    simp [generate_audio, hstrip]
  · intro hstrip hfs size htts hsize
    subst htts
    rcases hrm : removeOk <;>
      simp [generate_audio, hstrip, hfs, hsize, hrm]
  · intro hstrip hfs s htts
    subst htts
    rcases hrm : removeOk <;>
      simp [generate_audio, hstrip, hfs, hrm]
  · intro hstrip hfs htts
    subst htts
    simp [generate_audio, hstrip, hfs, setFile]

/-- Witness for C10: a raising save that left a 12-byte partial file leads to
a `None` result with a cleanup attempt. -/
theorem generate_audio_spec_witness :
    pyStrip ['h', 'i'] ≠ []
    ∧ ((fun _ => none : String → Option ℕ) (audio_path 0) = none)
    ∧ (generate_audio (TtsOutcome.fail (some 12)) true ['h', 'i'] 0
        (fun _ => none)).result = none
    ∧ (generate_audio (TtsOutcome.fail (some 12)) true ['h', 'i'] 0
        (fun _ => none)).removalAttempted = true :=
  ⟨by decide, rfl,
   ((generate_audio_spec (TtsOutcome.fail (some 12)) true ['h', 'i'] 0
      (fun _ => none)).2.2.1 (by decide) rfl 12 rfl).1,
   ((generate_audio_spec (TtsOutcome.fail (some 12)) true ['h', 'i'] 0
      (fun _ => none)).2.2.1 (by decide) rfl 12 rfl).2⟩

/-- Witness for C7: a valid one-element video list whose clip loads with
positive duration is concatenated, uploaded, and answered with 200 and the
public URL. -/
theorem final_video_endpoint_spec_witness :
    ([PyVal.str "a.mp4"] : List PyVal) ≠ []
    ∧ concatenate_videos_cloudrun
        (fun p => if p = "a.mp4" then some (LoadOutcome.clip 1) else none)
        true [PyVal.str "a.mp4"] "final_videos/complete_video.mp4" = true
    ∧ final_video_endpoint
        (fun p => if p = "a.mp4" then some (LoadOutcome.clip 1) else none)
        true true (Except.ok "https://example.test/complete_video.mp4")
        (some (some [PyVal.str "a.mp4"]))
      = (200, ⟨"success", none,
          some "https://example.test/complete_video.mp4"⟩) :=
  ⟨by decide, by decide,
   (final_video_endpoint_spec
      (fun p => if p = "a.mp4" then some (LoadOutcome.clip 1) else none)
      true true (Except.ok "https://example.test/complete_video.mp4")
      (some (some [PyVal.str "a.mp4"]))).2.2.2.1
      [PyVal.str "a.mp4"] "https://example.test/complete_video.mp4"
      (by decide) rfl rfl (by decide) rfl⟩
